import Mathlib

/-!
Verification development for the tori terminal music browser core:
the pane/modal orchestration state machine of `BrowseScreen`
(src/app/browse_screen/mod.rs), the songs pane (src/app/browse_screen/songs.rs)
and the text-input modal (src/app/modal/input_modal.rs).

Strings of the Rust source are modelled as `List Char`; byte indices into a
Rust `String` are modelled as byte offsets computed from `Char.utf8Size`
(UTF-8 preserves the order and boundaries of characters, so a `List Char`
together with byte offsets is a faithful model of a Rust `String` and its
byte indices).  External collaborators (the playlist store, the mpv player,
the notification sink) are modelled as oracles deciding the outcome of each
call, plus a list of emitted side effects.  A Rust panic is modelled as a
dedicated `panic` result (or `Option.none` for the pure string primitives).
-/

/-! ## Byte-offset primitives for Rust strings -/

/-- Total number of UTF-8 bytes of a string, modelling Rust `String::len`. -/
def byteLen : List Char → Nat
  | [] => 0
  | c :: cs => c.utf8Size + byteLen cs

/-- Whether byte offset `i` is a character boundary of the string,
modelling Rust `str::is_char_boundary` (offset 0 and the total length are
boundaries; an offset inside the UTF-8 encoding of a character is not). -/
def isBoundary : List Char → Nat → Bool
  | _, 0 => true
  | [], _ + 1 => false
  | c :: cs, i + 1 =>
    if c.utf8Size ≤ i + 1 then isBoundary cs (i + 1 - c.utf8Size) else false

/-- Split a string at byte offset `i`: `some (l, r)` when `i` is a character
boundary (with `byteLen l = i`), `none` otherwise.  The `none` case models
the panic of Rust slicing / `String::insert` / `String::remove` at a
non-boundary or out-of-range index. -/
def splitAtByte : List Char → Nat → Option (List Char × List Char)
  | s, 0 => some ([], s)
  | [], _ + 1 => none
  | c :: cs, i + 1 =>
    if c.utf8Size ≤ i + 1 then
      (splitAtByte cs (i + 1 - c.utf8Size)).map (fun p => (c :: p.1, p.2))
    else none

/-- Rust `String::insert self.cursor c`: insert a character at a byte offset;
`none` models the panic on a non-boundary index. -/
def insertAtByte (s : List Char) (i : Nat) (c : Char) : Option (List Char) :=
  (splitAtByte s i).map (fun p => p.1 ++ c :: p.2)

/-- Rust `String::remove i`: remove the character starting at byte offset `i`;
`none` models the panic on a non-boundary index or `i ≥ len`. -/
def removeAtByte (s : List Char) (i : Nat) : Option (List Char) :=
  match splitAtByte s i with
  | some (l, _ :: r) => some (l ++ r)
  | _ => none

/-! ## InputModal (src/app/modal/input_modal.rs) -/

/-- Completion message of a modal, from src/app/modal (Nothing / Quit /
Commit).  The spec calls Quit "Cancelled" and Commit "Committed". -/
inductive ModalMessage where
  | nothing
  | quit
  | commit (payload : List Char)
deriving DecidableEq

/-- Key codes relevant to the embedded handlers (crossterm `KeyCode`);
`other` stands for every remaining key. -/
inductive KeyCode where
  | char (c : Char)
  | backspace
  | delete
  | left
  | right
  | home
  | kEnd
  | esc
  | enter
  | other
deriving DecidableEq

/-- State of `InputModal` (input_modal.rs lines 22-28): text buffer, byte
cursor into it, and the visual scroll offset.  The title and style fields are
irrelevant to the claims and omitted. -/
structure InputModalState where
  input : List Char
  cursor : Nat
  scroll : Nat
deriving DecidableEq

/-- One step of the clamp used by `InputModal::move_cursor` (line 48):
`(y as isize + x).min(len).max(0) as usize`. -/
def move_step (len : Nat) (x : Int) (y : Nat) : Nat :=
  (((y : Int) + x).toNat).min len

/-- The `while !is_char_boundary` loop of `InputModal::move_cursor`
(lines 51-53), with explicit fuel.  The source only ever calls
`move_cursor` with `x = 1` or `x = -1`, for which `byteLen s + 1` fuel always
suffices to reach a boundary (proved below), so the fuel never runs out on
the calls the source makes. -/
def move_loop (s : List Char) (x : Int) : Nat → Nat → Nat
  | 0, c => c
  | fuel + 1, c =>
    if isBoundary s c then c else move_loop s x fuel (move_step (byteLen s) x c)

/-- `InputModal::move_cursor` (input_modal.rs lines 47-54): apply the clamp
once, then skip to the nearest character boundary in the direction of `x`. -/
def move_cursor (s : List Char) (x : Int) (c : Nat) : Nat :=
  move_loop s x (byteLen s + 1) (move_step (byteLen s) x c)

/-- `InputModal::new` (lines 31-39): empty buffer, cursor and scroll at 0. -/
def inputModalNew : InputModalState := ⟨[], 0, 0⟩

/-- `InputModal::set_input` (lines 41-45): sets the buffer and places the
cursor at the byte length of the buffer. -/
def set_input (input : List Char) : InputModalState := ⟨input, byteLen input, 0⟩

/-- `InputModal::handle_event` (input_modal.rs lines 62-106) restricted to
key events (non-key events fall through to `Message::Nothing` unchanged).
`none` models a Rust panic inside `String::insert` / `String::remove`. -/
def modal_handle_event (m : InputModalState) (k : KeyCode) :
    Option (InputModalState × ModalMessage) :=
  match k with
  | .char c =>
    (insertAtByte m.input m.cursor c).map (fun input' =>
      ({ m with input := input', cursor := move_cursor input' 1 m.cursor },
        .nothing))
  | .backspace =>
    if 0 < m.cursor then
      let c' := move_cursor m.input (-1) m.cursor
      (removeAtByte m.input c').map (fun input' =>
        ({ m with input := input', cursor := c' }, .nothing))
    else some (m, .nothing)
  | .delete =>
    if m.cursor < byteLen m.input then
      (removeAtByte m.input m.cursor).map (fun input' =>
        ({ m with input := input' }, .nothing))
    else some (m, .nothing)
  | .left => some ({ m with cursor := move_cursor m.input (-1) m.cursor }, .nothing)
  | .right => some ({ m with cursor := move_cursor m.input 1 m.cursor }, .nothing)
  | .home => some ({ m with cursor := 0 }, .nothing)
  | .kEnd => some ({ m with cursor := byteLen m.input }, .nothing)
  | .esc => some ({ m with input := [] }, .quit)
  | .enter => some ({ m with input := [] }, .commit m.input)
  | .other => some (m, .nothing)

/-- Fold of `modal_handle_event` over a sequence of key events delivered to
the modal; `none` as soon as one of them panics. -/
def process_events (m : InputModalState) : List KeyCode → Option InputModalState
  | [] => some m
  | k :: ks =>
    match modal_handle_event m k with
    | none => none
    | some (m', _) => process_events m' ks

/-- `InputModal::calculate_scroll` (input_modal.rs lines 153-163), on the
mathematical integers (the source uses u16; all quantities stay far below
2^16 in the claims).  Subtractions are the source's own: the first guard
makes `cursor + 1 - chunk_width` non-negative, and `cursor - 1` models
`saturating_sub(1)`. -/
def calculate_scroll (cursor scroll chunk_width : Nat) : Nat :=
  let s1 := if scroll + chunk_width - 1 < cursor then cursor + 1 - chunk_width else scroll
  if cursor ≤ s1 then cursor - 1 else s1

/-- The scroll update performed by `InputModal::render` (line 112): the call
`self.calculate_scroll(chunk.width - prefix.len())` stores the new scroll in
the state; `w` is the already-computed window width. -/
def render_scroll_update (w : Nat) (m : InputModalState) : InputModalState :=
  { m with scroll := calculate_scroll m.cursor m.scroll w }

/-! ## BrowseScreen (src/app/browse_screen/mod.rs) -/

/-- `ModalType` (mod.rs lines 31-38): why the active modal was opened, with
its captured context. -/
inductive ModalType where
  | play
  | addSong (playlist : List Char)
  | addPlaylist
  | renameSong (playlist : List Char) (index : Nat)
  | deleteSong (playlist : List Char) (index : Nat)
deriving DecidableEq

/-- `BrowsePane` (mod.rs lines 40-47): the focused target of the screen. -/
inductive BrowsePane where
  | playlists
  | songs
  | modal (t : ModalType)
deriving DecidableEq

/-- Opaque error carried by failing external calls (I/O, mpv). -/
structure Err where
  code : Nat
deriving DecidableEq

/-- Result of `playlist_management::create_playlist` (consumed at
mod.rs lines 122-131). -/
inductive CreateResult where
  | ok
  | alreadyExists
  | ioErr (e : Err)
deriving DecidableEq

/-- Outcomes of the external collaborator calls made while resolving a modal
message; the screen itself is deterministic given these. -/
structure Oracles where
  create : CreateResult
  reload_dir : Except Err Unit
  play : Except Err Unit
  rename : Except Err Unit
  delete : Except Err Unit

/-- Externally visible side effects emitted by the embedded handlers. -/
inductive SideEffect where
  | addedSong (playlist song : List Char)
  | createdPlaylist (name : List Char)
  | reloadedPlaylists
  | notifiedErr (name : List Char)
  | playedReplace (path : List Char)
  | renamedSong (playlist : List Char) (index : Nat) (newName : List Char)
  | deletedSong (playlist : List Char) (index : Nat)
  | reloadedSongs
  | openedEditor
  | paneKeyEvent (k : KeyCode)
  | swappedInSource (index : Nat)
deriving DecidableEq

/-- Result of a `BrowseScreen` handler: `panic` models a Rust panic, `err`
models an `Err(_)` propagated to the caller (on which `selected_pane` is left
unchanged and any effects already performed are dropped from the record),
`ok` carries the new focused pane and the effects performed. -/
inductive MRes where
  | panic
  | err (e : Err)
  | ok (pane : BrowsePane) (effs : List SideEffect)
deriving DecidableEq

/-- `BrowseScreen::handle_modal_message` (mod.rs lines 97-181): exhaustive
match over the recorded modal intent and the modal's completion message; a
panic when no modal is focused (line 178).  The `create` oracle stands for
`create_playlist` (its `alreadyExists` answer means nothing was created),
and the other oracles for the respective external calls. -/
def handle_modal_message (pane : BrowsePane) (msg : ModalMessage) (o : Oracles) : MRes :=
  match pane with
  | .modal mt =>
    match mt, msg with
    | _, .nothing => .ok (.modal mt) []
    | .addSong _, .quit => .ok .songs []
    | .addSong p, .commit song => .ok .songs [.addedSong p song]
    | .addPlaylist, .quit => .ok .playlists []
    | .addPlaylist, .commit name =>
      match o.create with
      | .ok =>
        match o.reload_dir with
        | .ok _ => .ok .playlists [.createdPlaylist name, .reloadedPlaylists]
        | .error e => .err e
      | .alreadyExists => .ok .playlists [.notifiedErr name]
      | .ioErr e => .err e
    | .play, .quit => .ok .songs []
    | .play, .commit path =>
      match o.play with
      | .ok _ => .ok .songs [.playedReplace path]
      | .error e => .err e
    | .renameSong _ _, .quit => .ok .songs []
    | .renameSong p i, .commit n =>
      match o.rename with
      | .ok _ => .ok .songs [.renamedSong p i n, .reloadedSongs]
      | .error e => .err e
    | .deleteSong _ _, .quit => .ok .songs []
    | .deleteSong p i, .commit _ =>
      match o.delete with
      | .ok _ => .ok .songs [.deletedSong p i, .reloadedSongs]
      | .error e => .err e
  | _ => .panic

/-- `BrowseScreen::select_next_panel` (mod.rs lines 297-308). -/
def select_next_panel : BrowsePane → BrowsePane
  | .playlists => .songs
  | .songs => .playlists
  | .modal t => .modal t

/-- The commands `BrowseScreen::handle_command` (mod.rs lines 184-254)
intercepts itself; `other` stands for every remaining command, which is
delegated by `pass_event_down` and never touches `selected_pane` (the panes
have no access to it, and a delegated command reaching the modal yields
`Message::Nothing`, which `handle_modal_message` leaves in place). -/
inductive UiCommand where
  | playFromModal
  | selectRight
  | selectLeft
  | add
  | rename
  | delete
  | other
deriving DecidableEq

/-- Projection of `BrowseScreen::handle_command` (mod.rs lines 184-254) onto
the `selected_pane` field.  `playlistSel` is `playlists.selected_item()` and
`songSel` is `songs.selected_index()`, the two pane lookups the command
dispatch reads.  `open_modal` / `open_confirmation` both set
`selected_pane := Modal(intent)` (lines 282-295); the prompt titles are not
modelled. -/
def handle_command_focus (pane : BrowsePane) (cmd : UiCommand)
    (playlistSel : Option (List Char)) (songSel : Option Nat) : BrowsePane :=
  match cmd with
  | .playFromModal => .modal .play
  | .selectRight => select_next_panel pane
  | .selectLeft => select_next_panel pane
  | .add =>
    match pane with
    | .playlists => .modal .addPlaylist
    | .songs =>
      match playlistSel with
      | some p => .modal (.addSong p)
      | none => pane
    | .modal t => .modal t
  | .rename =>
    match pane with
    | .songs =>
      match playlistSel, songSel with
      | some p, some i => .modal (.renameSong p i)
      | _, _ => pane
    | _ => pane
  | .delete =>
    match pane with
    | .songs =>
      match playlistSel, songSel with
      | some p, some i => .modal (.deleteSong p i)
      | _, _ => pane
    | _ => pane
  | .other => pane

/-- The pane `handle_modal_message` moves focus to when the modal emits
`Quit` (Cancelled): fixed per intent, `Playlists` for AddPlaylist and
`Songs` for every other intent. -/
def cancel_return_pane : ModalType → BrowsePane
  | .addPlaylist => .playlists
  | _ => .songs

/-- `Mode` (src/app/mod.rs): Normal or Insert input mode. -/
inductive ScreenMode where
  | normal
  | insert
deriving DecidableEq

/-- Screen state relevant to terminal-event routing: the focused pane and
the state of the active `InputModal`.  (Of the two modal kinds only
`InputModal` is under src/; the `DeleteSong` confirmation modal is not
modelled.) -/
structure Screen where
  pane : BrowsePane
  modal : InputModalState
deriving DecidableEq

/-- `BrowseScreen::mode` (mod.rs lines 354-361): delegates to the focused
component; for a focused modal, `InputModal::mode` is `Insert`
(input_modal.rs lines 146-148).  `paneMode` is the mode reported by the
focused list pane. -/
def screen_mode (s : Screen) (paneMode : ScreenMode) : ScreenMode :=
  match s.pane with
  | .modal _ => .insert
  | _ => paneMode

/-- `BrowseScreen::pass_event_down` (mod.rs lines 83-93) for a key event:
a focused list pane receives the event (its internal state is outside this
model, and it cannot touch `selected_pane`); a focused modal handles the
event and the resulting message is resolved by `handle_modal_message`. -/
def pass_event_down_key (o : Oracles) (s : Screen) (k : KeyCode) : MRes × InputModalState :=
  match s.pane with
  | .playlists => (.ok s.pane [.paneKeyEvent k], s.modal)
  | .songs => (.ok s.pane [.paneKeyEvent k], s.modal)
  | .modal _ =>
    match modal_handle_event s.modal k with
    | none => (.panic, s.modal)
    | some (m', msg) => (handle_modal_message s.pane msg o, m')

/-- `BrowseScreen::handle_terminal_event` (mod.rs lines 257-279) for key
events: Right and Left are intercepted and cycle the panel selection before
any focus check; `c` opens the playlist editor when the screen mode is
Normal; everything else is passed down to the focused target.  Returns the
handler result together with the (possibly updated) modal state. -/
def handle_terminal_key (o : Oracles) (paneMode : ScreenMode) (s : Screen)
    (k : KeyCode) : MRes × InputModalState :=
  match k with
  | .right => (.ok (select_next_panel s.pane) [], s.modal)
  | .left => (.ok (select_next_panel s.pane) [], s.modal)
  | .char c =>
    if c = 'c' ∧ screen_mode s paneMode = .normal then (.ok s.pane [.openedEditor], s.modal)
    else pass_event_down_key o s k
  | _ => pass_event_down_key o s k

/-- All-success oracles, for concrete evaluations. -/
def oraclesOk : Oracles :=
  { create := .ok, reload_dir := .ok (), play := .ok (), rename := .ok (),
    delete := .ok () }

/-! ## SongsPane (src/app/browse_screen/songs.rs) -/

/-- `m3u::Song`: title, path and duration (modelled in whole seconds). -/
structure Song where
  title : List Char
  path : List Char
  duration : Nat
deriving DecidableEq, Inhabited

/-- `SortingMethod` (src/app/filtered_list.rs, via its uses in songs.rs). -/
inductive SortingMethod where
  | index
  | title
  | duration
deriving DecidableEq

/-- Lexicographic comparison of two strings, modelling Rust `String::cmp`
(byte order of UTF-8 equals code-point order, which equals `Char` order). -/
def compareChars : List Char → List Char → Ordering
  | [], [] => .eq
  | [], _ :: _ => .lt
  | _ :: _, [] => .gt
  | a :: as, b :: bs =>
    match compare a b with
    | .eq => compareChars as bs
    | o => o

/-- `compare_songs` (songs.rs lines 24-32).  The source marks the `Index`
arm `unreachable!` because the refresh never sorts under `Index`; the model
returns `.eq` there and, matching the source invariant, never consults it
for `Index`. -/
def compare_songs (a b : Song) (m : SortingMethod) : Ordering :=
  match m with
  | .index => .eq
  | .title => compareChars a.title b.title
  | .duration => compare a.duration b.duration

/-- Rust `str::contains(needle)`: `needle` occurs as a contiguous substring
of the haystack. -/
def substring_of (needle : List Char) : List Char → Bool
  | [] => needle.isEmpty
  | h :: t => needle.isPrefixOf (h :: t) || substring_of needle t

/-- Rust `str::trim_end_matches('\n')`: drop every trailing line break. -/
def strip_trailing_newlines (l : List Char) : List Char :=
  (l.reverse.dropWhile (fun c => c == '\n')).reverse

/-- Rust `str::to_lowercase`, modelled character-wise by `Char.toLower`
(exact on ASCII, which is what the filter scenarios exercise). -/
def lowercase (l : List Char) : List Char := l.map Char.toLower

/-- The filter predicate closure of `refresh_shown` (songs.rs lines 110-118):
an empty filter matches everything, otherwise the filter text without its
leading sentinel byte (`self.filter[1..]`, the sentinel `/` is one byte) and
without trailing line breaks must be a case-insensitive substring of the
song's title or path. -/
def song_filter_pred (filter : List Char) (s : Song) : Bool :=
  filter.isEmpty
    || substring_of (lowercase (strip_trailing_newlines (filter.drop 1))) (lowercase s.title)
    || substring_of (lowercase (strip_trailing_newlines (filter.drop 1))) (lowercase s.path)

/-- Insert into a sorted list, keeping earlier elements first on ties. -/
def ordered_insert (le : Nat → Nat → Bool) (a : Nat) : List Nat → List Nat
  | [] => [a]
  | b :: l => if le a b then a :: b :: l else b :: ordered_insert le a l

/-- Stable insertion sort over backing indices. -/
def insertion_sort (le : Nat → Nat → Bool) : List Nat → List Nat
  | [] => []
  | a :: l => ordered_insert le a (insertion_sort le l)

/-- Modelled from the spec: `FilteredList::filter`
(src/app/filtered_list.rs is not under src/).  Per spec 4.1, the visible
sequence is the list of backing indices satisfying the predicate in backing
order and, when the sorting method is not `Index`, stable-sorted by the
comparator. -/
def filtered_list_filter (n : Nat) (pred : Nat → Bool) (m : SortingMethod)
    (le : Nat → Nat → Bool) : List Nat :=
  let vis := (List.range n).filter pred
  match m with
  | .index => vis
  | _ => insertion_sort le vis

/-- The index comparator passed to the view by `refresh_shown`
(songs.rs line 119): compare the backing songs at the two indices; `le`
holds unless the comparison is `gt` (indices stay in range, so the `getD`
default is never consulted). -/
def songs_le (songs : List Song) (m : SortingMethod) (i j : Nat) : Bool :=
  match compare_songs (songs.getD i default) (songs.getD j default) m with
  | .gt => false
  | _ => true

/-- `SongsPane::refresh_shown` (songs.rs lines 109-121): recompute the
visible index sequence from the backing songs, the filter buffer and the
current sorting method. -/
def refresh_shown (songs : List Song) (filter : List Char) (m : SortingMethod) : List Nat :=
  filtered_list_filter songs.length
    (fun i => song_filter_pred filter (songs.getD i default)) m (songs_le songs m)

/-- State of `SongsPane` (songs.rs lines 34-41): pane title (the playlist
name), backing songs, the visible index sequence and cursor of the
`FilteredList` view, the filter buffer, and the sorting method stored in the
view.  Mouse double-click bookkeeping is irrelevant to the claims. -/
structure SongsPaneState where
  title : List Char
  songs : List Song
  items : List Nat
  cursor : Option Nat
  filter : List Char
  method : SortingMethod
deriving DecidableEq

/-- Modelled from the spec: `FilteredList::selected_item`
(src/app/filtered_list.rs is not under src/).  Per spec 4.1
(`selected_backing_index`), the cursor position is mapped through the
visible sequence to a backing index. -/
def selected_index (p : SongsPaneState) : Option Nat :=
  p.cursor.bind (fun c => p.items.get? c)

/-- `SongsPane::selected_item` (songs.rs lines 321-325): the backing song at
the selected backing index, if any. -/
def selected_song (p : SongsPaneState) : Option Song :=
  (selected_index p).bind (fun i => p.songs.get? i)

/-- Modelled from the spec: `FilteredList::select_prev`
(src/app/filtered_list.rs is not under src/).  Per spec 4.1 the cursor moves
one position back within the visible sequence, clamped at the start, and is
a no-op on an empty visible sequence; an absent cursor selects the first
element. -/
def select_prev_cursor (cursor : Option Nat) (len : Nat) : Option Nat :=
  if len = 0 then cursor
  else
    match cursor with
    | some c => some (c - 1)
    | none => some 0

/-- Modelled from the spec: `FilteredList::select_next`
(src/app/filtered_list.rs is not under src/).  Per spec 4.1 the cursor moves
one position forward within the visible sequence, clamped at the end, and is
a no-op on an empty visible sequence; an absent cursor selects the first
element. -/
def select_next_cursor (cursor : Option Nat) (len : Nat) : Option Nat :=
  if len = 0 then cursor
  else
    match cursor with
    | some c => some (min (c + 1) (len - 1))
    | none => some 0

/-- `SongsPane::update_from_playlist` (songs.rs lines 75-107): re-derive the
backing songs from the parsed playlist (`parsed`; file opening and parsing
are external), set the title, clear the filter, refresh the visible
sequence, then restore the previous cursor if it is below the new backing
length, else select the first element if the visible sequence is non-empty,
else clear the selection. -/
def update_from_playlist (newTitle : List Char) (parsed : List Song)
    (p : SongsPaneState) : SongsPaneState :=
  let items := refresh_shown parsed [] p.method
  let cursor :=
    match p.cursor with
    | some i =>
      if i < parsed.length then some i
      else if items.isEmpty then none else some 0
    | none => if items.isEmpty then none else some 0
  { title := newTitle, songs := parsed, items := items, cursor := cursor,
    filter := [], method := p.method }

/-- Rust `Vec::swap i j`, `none` modelling the panic when an index is out of
bounds. -/
def list_swap (l : List Song) (i j : Nat) : Option (List Song) :=
  match l.get? i, l.get? j with
  | some a, some b => some ((l.set i b).set j a)
  | _, _ => none

/-- The two song-reorder commands of `SongsPane::handle_command`. -/
inductive SwapDir where
  | up
  | down
deriving DecidableEq

/-- Result of a songs-pane command: panic, propagated error, or the new pane
state with the effects performed. -/
inductive SRes where
  | panic
  | err (e : Err)
  | ok (p : SongsPaneState) (effs : List SideEffect)
deriving DecidableEq

/-- The `SwapSongUp` / `SwapSongDown` arms of `SongsPane::handle_command`
(songs.rs lines 226-240).  Both arms are guarded by `filter.is_empty()`
(otherwise the command falls through to the no-op arm).  `SwapSongUp` acts
only when the selected index is at least 1 and swaps backing entries
`i-1, i`; `SwapSongDown` acts on any selected index and swaps `i, i+1`
without a bound check.  In both the persisted swap (`swap_song`, whose
outcome is the oracle `o`) happens before the in-memory `Vec::swap`, and the
cursor then moves one visible position in the direction of the move. -/
def handle_swap_command (o : Except Err Unit) (d : SwapDir) (p : SongsPaneState) : SRes :=
  match d with
  | .up =>
    if p.filter.isEmpty then
      match selected_index p with
      | some i =>
        if 1 ≤ i then
          match o with
          | .error e => .err e
          | .ok _ =>
            match list_swap p.songs (i - 1) i with
            | none => .panic
            | some songs' =>
              .ok { p with
                    songs := songs'
                    cursor := select_prev_cursor p.cursor p.items.length }
                [.swappedInSource (i - 1)]
        else .ok p []
      | none => .ok p []
    else .ok p []
  | .down =>
    if p.filter.isEmpty then
      match selected_index p with
      | some i =>
        match o with
        | .error e => .err e
        | .ok _ =>
          match list_swap p.songs i (i + 1) with
          | none => .panic
          | some songs' =>
            .ok { p with
                  songs := songs'
                  cursor := select_next_cursor p.cursor p.items.length }
              [.swappedInSource i]
      | none => .ok p []
    else .ok p []

/-- A songs pane in the default configuration: unfiltered, `Index` sorting,
visible sequence equal to the backing order, cursor at visible position `c`. -/
def index_pane (t : List Char) (songs : List Song) (c : Nat) (f : List Char) :
    SongsPaneState :=
  ⟨t, songs, List.range songs.length, some c, f, .index⟩

/-- Sample songs for concrete evaluations. -/
def songA : Song := ⟨['a'], ['p'], 1⟩

/-- Sample song with title "b". -/
def songB : Song := ⟨['b'], ['q'], 2⟩

/-- Sample song with title "c". -/
def songC : Song := ⟨['c'], ['r'], 3⟩

/-! ## Lemmas about byte offsets and the cursor loop -/

/-- Byte length distributes over append. -/
theorem byteLen_append (l r : List Char) : byteLen (l ++ r) = byteLen l + byteLen r := by
  induction l with
  | nil => simp [byteLen]
  | cons c cs ih => simp [byteLen, ih]; omega

/-- Offset 0 is always a character boundary. -/
theorem boundary_zero (s : List Char) : isBoundary s 0 = true := by
  cases s <;> rfl

/-- The total byte length is always a character boundary. -/
theorem boundary_len (s : List Char) : isBoundary s (byteLen s) = true := by
  induction s with
  | nil => rfl
  | cons c cs ih =>
    have hp := Char.utf8Size_pos c
    show isBoundary (c :: cs) (c.utf8Size + byteLen cs) = true
    obtain ⟨k, hk⟩ : ∃ k, c.utf8Size + byteLen cs = k + 1 := ⟨c.utf8Size + byteLen cs - 1, by omega⟩
    rw [hk]
    simp only [isBoundary]
    rw [if_pos (by omega)]
    have h2 : k + 1 - c.utf8Size = byteLen cs := by omega
    rw [h2]
    exact ih

/-- A character boundary never exceeds the byte length. -/
theorem boundary_le (s : List Char) : ∀ (i : Nat), isBoundary s i = true → i ≤ byteLen s := by
  induction s with
  | nil =>
    intro i h
    cases i with
    | zero => simp [byteLen]
    | succ n => simp [isBoundary] at h
  | cons c cs ih =>
    intro i h
    cases i with
    | zero => simp [byteLen]
    | succ n =>
      simp only [isBoundary] at h
      split at h
      case isTrue hc =>
        have := ih _ h
        simp only [byteLen]
        omega
      case isFalse => simp at h

/-- At a character boundary, splitting succeeds and decomposes the string. -/
theorem splitAtByte_of_boundary (s : List Char) : ∀ (i : Nat), isBoundary s i = true →
    ∃ l r, splitAtByte s i = some (l, r) ∧ s = l ++ r ∧ byteLen l = i := by
  induction s with
  | nil =>
    intro i h
    cases i with
    | zero => exact ⟨[], [], rfl, rfl, rfl⟩
    | succ n => simp [isBoundary] at h
  | cons c cs ih =>
    intro i h
    cases i with
    | zero => exact ⟨[], c :: cs, rfl, rfl, rfl⟩
    | succ n =>
      simp only [isBoundary] at h
      split at h
      case isTrue hc =>
        obtain ⟨l, r, hsp, hs, hbl⟩ := ih _ h
        refine ⟨c :: l, r, ?_, by simp [hs], ?_⟩
        · simp only [splitAtByte]
          rw [if_pos hc, hsp]
          rfl
        · simp only [byteLen]
          omega
      case isFalse => simp at h

/-- The byte length of a left part is a boundary of any extension of it. -/
theorem boundary_append (l r : List Char) : isBoundary (l ++ r) (byteLen l) = true := by
  induction l with
  | nil => exact boundary_zero r
  | cons c cs ih =>
    have hp := Char.utf8Size_pos c
    show isBoundary (c :: (cs ++ r)) (c.utf8Size + byteLen cs) = true
    obtain ⟨k, hk⟩ : ∃ k, c.utf8Size + byteLen cs = k + 1 := ⟨c.utf8Size + byteLen cs - 1, by omega⟩
    rw [hk]
    simp only [isBoundary]
    rw [if_pos (by omega)]
    have h2 : k + 1 - c.utf8Size = byteLen cs := by omega
    rw [h2]
    exact ih

/-- The cursor clamp at `x = 1` increments and clamps at the length. -/
theorem move_step_one (len c : Nat) : move_step len 1 c = min (c + 1) len := by
  simp only [move_step]
  have h : ((c : Int) + 1).toNat = c + 1 := by omega
  rw [h]

/-- The cursor clamp at `x = -1` decrements and clamps at 0. -/
theorem move_step_neg_one (len c : Nat) : move_step len (-1) c = min (c - 1) len := by
  simp only [move_step]
  have h : ((c : Int) + (-1)).toNat = c - 1 := by omega
  rw [h]

/-- With enough fuel, the forward skip loop lands on a boundary at or below
the byte length. -/
theorem move_loop_fwd (s : List Char) : ∀ (fuel c : Nat), c ≤ byteLen s →
    byteLen s - c < fuel →
    isBoundary s (move_loop s 1 fuel c) = true ∧ move_loop s 1 fuel c ≤ byteLen s := by
  intro fuel
  induction fuel with
  | zero => intro c _ h; omega
  | succ n ih =>
    intro c hc hf
    simp only [move_loop]
    by_cases hb : isBoundary s c = true
    · rw [if_pos hb]; exact ⟨hb, hc⟩
    · rw [if_neg hb]
      have hne : c ≠ byteLen s := fun he => hb (he ▸ boundary_len s)
      rw [move_step_one]
      have hmin : min (c + 1) (byteLen s) = c + 1 := by omega
      rw [hmin]
      exact ih (c + 1) (by omega) (by omega)

/-- With enough fuel, the backward skip loop lands on a boundary at or below
the byte length. -/
theorem move_loop_bwd (s : List Char) : ∀ (fuel c : Nat), c ≤ byteLen s → c < fuel →
    isBoundary s (move_loop s (-1) fuel c) = true ∧ move_loop s (-1) fuel c ≤ byteLen s := by
  intro fuel
  induction fuel with
  | zero => intro c _ h; omega
  | succ n ih =>
    intro c hc hf
    simp only [move_loop]
    by_cases hb : isBoundary s c = true
    · rw [if_pos hb]; exact ⟨hb, hc⟩
    · rw [if_neg hb]
      have hne : c ≠ 0 := fun he => hb (he ▸ boundary_zero s)
      rw [move_step_neg_one]
      have hmin : min (c - 1) (byteLen s) = c - 1 := by omega
      rw [hmin]
      exact ih (c - 1) (by omega) (by omega)

/-- The backward skip loop never moves forward. -/
theorem move_loop_neg_le (s : List Char) : ∀ (fuel c : Nat), move_loop s (-1) fuel c ≤ c := by
  intro fuel
  induction fuel with
  | zero => intro c; exact Nat.le_refl c
  | succ n ih =>
    intro c
    simp only [move_loop]
    by_cases hb : isBoundary s c = true
    · rw [if_pos hb]
    · rw [if_neg hb, move_step_neg_one]
      calc move_loop s (-1) n (min (c - 1) (byteLen s)) ≤ min (c - 1) (byteLen s) := ih _
        _ ≤ c := by omega

/-- `move_cursor` with `x = 1` always lands on a character boundary within
the string. -/
theorem move_cursor_one_valid (s : List Char) (c : Nat) :
    isBoundary s (move_cursor s 1 c) = true ∧ move_cursor s 1 c ≤ byteLen s := by
  unfold move_cursor
  rw [move_step_one]
  exact move_loop_fwd s (byteLen s + 1) (min (c + 1) (byteLen s)) (by omega) (by omega)

/-- `move_cursor` with `x = -1` always lands on a character boundary within
the string. -/
theorem move_cursor_neg_valid (s : List Char) (c : Nat) :
    isBoundary s (move_cursor s (-1) c) = true ∧ move_cursor s (-1) c ≤ byteLen s := by
  unfold move_cursor
  rw [move_step_neg_one]
  exact move_loop_bwd s (byteLen s + 1) (min (c - 1) (byteLen s)) (by omega) (by omega)

/-- `move_cursor` with `x = -1` strictly retreats (below `c`). -/
theorem move_cursor_neg_le (s : List Char) (c : Nat) : move_cursor s (-1) c ≤ c - 1 := by
  unfold move_cursor
  rw [move_step_neg_one]
  calc move_loop s (-1) (byteLen s + 1) (min (c - 1) (byteLen s)) ≤ min (c - 1) (byteLen s) :=
        move_loop_neg_le s _ _
    _ ≤ c - 1 := by omega

/-- Removing at an in-range boundary succeeds and keeps the offset a
boundary of the shortened string. -/
theorem removeAtByte_of_boundary (s : List Char) (i : Nat)
    (hb : isBoundary s i = true) (hlt : i < byteLen s) :
    ∃ s', removeAtByte s i = some s' ∧ isBoundary s' i = true := by
  obtain ⟨l, r, hsp, hs, hbl⟩ := splitAtByte_of_boundary s i hb
  cases r with
  | nil =>
    exfalso
    rw [hs, byteLen_append] at hlt
    simp [byteLen] at hlt
    omega
  | cons ch r' =>
    refine ⟨l ++ r', ?_, ?_⟩
    · simp [removeAtByte, hsp]
    · rw [← hbl]
      exact boundary_append l r'

/-- Inserting at a boundary succeeds. -/
theorem insertAtByte_of_boundary (s : List Char) (i : Nat) (ch : Char)
    (hb : isBoundary s i = true) :
    ∃ s', insertAtByte s i ch = some s' := by
  obtain ⟨l, r, hsp, _, _⟩ := splitAtByte_of_boundary s i hb
  exact ⟨l ++ ch :: r, by simp [insertAtByte, hsp]⟩

/-- A single non-Esc, non-Enter key event never panics and keeps the cursor
on a character boundary (and it emits `Nothing`). -/
theorem modal_handle_event_preserves (m : InputModalState) (k : KeyCode)
    (hk1 : k ≠ KeyCode.esc) (hk2 : k ≠ KeyCode.enter)
    (hb : isBoundary m.input m.cursor = true) :
    ∃ m', modal_handle_event m k = some (m', ModalMessage.nothing) ∧
      isBoundary m'.input m'.cursor = true := by
  cases k with
  | char c =>
    obtain ⟨s', hs'⟩ := insertAtByte_of_boundary m.input m.cursor c hb
    refine ⟨{ m with input := s', cursor := move_cursor s' 1 m.cursor }, ?_, ?_⟩
    · simp [modal_handle_event, hs']
    · exact (move_cursor_one_valid s' m.cursor).1
  | backspace =>
    by_cases hc : 0 < m.cursor
    · have hble := boundary_le m.input m.cursor hb
      have hvalid := move_cursor_neg_valid m.input m.cursor
      have hle := move_cursor_neg_le m.input m.cursor
      have hlt : move_cursor m.input (-1) m.cursor < byteLen m.input := by omega
      obtain ⟨s', hs', hb'⟩ :=
        removeAtByte_of_boundary m.input (move_cursor m.input (-1) m.cursor) hvalid.1 hlt
      refine ⟨{ m with input := s', cursor := move_cursor m.input (-1) m.cursor }, ?_, hb'⟩
      simp [modal_handle_event, hc, hs']
    · refine ⟨m, ?_, hb⟩
      simp [modal_handle_event, hc]
  | delete =>
    by_cases hlt : m.cursor < byteLen m.input
    · obtain ⟨s', hs', hb'⟩ := removeAtByte_of_boundary m.input m.cursor hb hlt
      refine ⟨{ m with input := s' }, ?_, hb'⟩
      simp [modal_handle_event, hlt, hs']
    · refine ⟨m, ?_, hb⟩
      simp [modal_handle_event, hlt]
  | left => exact ⟨_, rfl, (move_cursor_neg_valid m.input m.cursor).1⟩
  | right => exact ⟨_, rfl, (move_cursor_one_valid m.input m.cursor).1⟩
  | home => exact ⟨_, rfl, boundary_zero m.input⟩
  | kEnd => exact ⟨_, rfl, boundary_len m.input⟩
  | esc => exact absurd rfl hk1
  | enter => exact absurd rfl hk2
  | other => exact ⟨m, rfl, hb⟩

/-- Event sequences without Esc and Enter never panic and keep the cursor on
a character boundary. -/
theorem process_events_preserves : ∀ (ks : List KeyCode) (m : InputModalState),
    (∀ k ∈ ks, k ≠ KeyCode.esc ∧ k ≠ KeyCode.enter) →
    isBoundary m.input m.cursor = true →
    ∃ m', process_events m ks = some m' ∧ isBoundary m'.input m'.cursor = true := by
  intro ks
  induction ks with
  | nil => intro m _ hb; exact ⟨m, rfl, hb⟩
  | cons k ks ih =>
    intro m hks hb
    obtain ⟨hk1, hk2⟩ := hks k (List.mem_cons_self k ks)
    obtain ⟨m1, hm1, hb1⟩ := modal_handle_event_preserves m k hk1 hk2 hb
    obtain ⟨m', hm', hb'⟩ := ih m1 (fun k' hk' => hks k' (List.mem_cons_of_mem k hk')) hb1
    exact ⟨m', by simp [process_events, hm1, hm'], hb'⟩

/-! ## Claim theorems -/

/-- C7 counterexample: as stated over arbitrary event sequences the claim is
false.  After typing `a` and pressing Enter, the buffer is reset to empty by
`mem::take` but the cursor is left at byte offset 1, which is larger than the
new buffer length (so not a valid character-boundary index of the buffer);
the next character insertion then indexes past the end of the buffer and
panics (`process_events` returns `none`). -/
theorem c7_counterexample :
    process_events inputModalNew [KeyCode.char 'a', KeyCode.enter] =
      some ⟨[], 1, 0⟩ ∧
    ¬ (1 ≤ byteLen ([] : List Char)) ∧
    process_events inputModalNew [KeyCode.char 'a', KeyCode.enter, KeyCode.char 'b'] =
      none := by
  decide

/-- C7 (amended): within a single editing session, that is, for every event
sequence containing neither Esc nor Enter (whose handlers clear the buffer
without resetting the cursor), starting from any buffer content via
`set_input`, the cursor is always a valid character-boundary byte index
between 0 and the buffer length, and the insertion, removal and split
operations at the cursor never index into the middle of a character: no
event ever panics. -/
theorem c7_cursor_always_boundary (input : List Char) (ks : List KeyCode)
    (hks : ∀ k ∈ ks, k ≠ KeyCode.esc ∧ k ≠ KeyCode.enter) :
    ∃ m', process_events (set_input input) ks = some m' ∧
      isBoundary m'.input m'.cursor = true ∧ m'.cursor ≤ byteLen m'.input := by
  obtain ⟨m', hm', hb'⟩ :=
    process_events_preserves ks (set_input input) hks (boundary_len input)
  exact ⟨m', hm', hb', boundary_le m'.input m'.cursor hb'⟩

/-- Witness for the amended C7 at a concrete multi-byte buffer and event
sequence. -/
theorem c7_cursor_always_boundary_witness :
    ∃ m', process_events (set_input ['日', '本', '語'])
        [KeyCode.left, KeyCode.left, KeyCode.char 'a', KeyCode.backspace] = some m' ∧
      isBoundary m'.input m'.cursor = true ∧ m'.cursor ≤ byteLen m'.input :=
  c7_cursor_always_boundary ['日', '本', '語']
    [KeyCode.left, KeyCode.left, KeyCode.char 'a', KeyCode.backspace] (by decide)

/-- C6 counterexample: the scroll invariant does not hold after every edit
and the scroll is not minimal.  Typing `abcdef` into a fresh modal and
rendering at window width 3 yields scroll 4; the Home edit then moves the
cursor to 0 while the scroll stays 4, so `scroll ≤ cursor` fails until the
next render.  Moreover `calculate_scroll 5 3 10 = 3` although scroll 0
already satisfies `0 ≤ 5 < 0 + 10`, so the computed scroll is not minimal. -/
theorem c6_counterexample :
    process_events inputModalNew
        [KeyCode.char 'a', KeyCode.char 'b', KeyCode.char 'c', KeyCode.char 'd',
          KeyCode.char 'e', KeyCode.char 'f'] =
      some ⟨['a', 'b', 'c', 'd', 'e', 'f'], 6, 0⟩ ∧
    render_scroll_update 3 ⟨['a', 'b', 'c', 'd', 'e', 'f'], 6, 0⟩ =
      ⟨['a', 'b', 'c', 'd', 'e', 'f'], 6, 4⟩ ∧
    modal_handle_event ⟨['a', 'b', 'c', 'd', 'e', 'f'], 6, 4⟩ KeyCode.home =
      some (⟨['a', 'b', 'c', 'd', 'e', 'f'], 0, 4⟩, ModalMessage.nothing) ∧
    ¬ (4 ≤ 0) ∧
    calculate_scroll 5 3 10 = 3 ∧ (0 ≤ 5 ∧ 5 < 0 + 10) ∧ 0 < 3 := by
  decide

/-- C6 (amended): the window invariant `scroll ≤ cursor < scroll + width` is
established by `calculate_scroll`, hence it holds at render time (for any
window width at least 2); the scroll is not minimal subject to it, and
between renders an edit may violate it, since the input handlers never touch
the scroll. -/
theorem c6_scroll_invariant_at_render (cursor scroll width : Nat) (h : 2 ≤ width) :
    calculate_scroll cursor scroll width ≤ cursor ∧
    cursor < calculate_scroll cursor scroll width + width := by
  simp only [calculate_scroll]
  split <;> split <;> omega

/-- Witness for the amended C6 at the concrete render of the
counterexample. -/
theorem c6_scroll_invariant_at_render_witness :
    calculate_scroll 6 0 3 ≤ 6 ∧ 6 < calculate_scroll 6 0 3 + 3 :=
  c6_scroll_invariant_at_render 6 0 3 (by decide)

/-- C10: Enter always emits `Commit` with the current buffer and resets the
buffer to empty, even when the buffer is empty (`Commit ""` is a possible
completion message); the committed payload is not validated, so an
AddPlaylist intent receives the empty name and passes it straight to
playlist creation. -/
theorem c10_enter_commits :
    (∀ m : InputModalState,
        modal_handle_event m KeyCode.enter =
          some ({ m with input := [] }, ModalMessage.commit m.input)) ∧
    modal_handle_event inputModalNew KeyCode.enter =
      some (inputModalNew, ModalMessage.commit []) ∧
    handle_modal_message (.modal .addPlaylist) (.commit []) oraclesOk =
      .ok .playlists [.createdPlaylist [], .reloadedPlaylists] := by
  exact ⟨fun m => rfl, rfl, rfl⟩

/-- C2: `handle_modal_message` is total over the closed set of
(intent, message) pairs, never reaching the panicking fallback when a modal
is focused, and invoking it while the focus is a list pane is the
unrecoverable panic at mod.rs line 178. -/
theorem c2_resolve_total_and_panics :
    (∀ (mt : ModalType) (msg : ModalMessage) (o : Oracles),
        handle_modal_message (.modal mt) msg o ≠ .panic) ∧
    (∀ (msg : ModalMessage) (o : Oracles),
        handle_modal_message .playlists msg o = .panic ∧
        handle_modal_message .songs msg o = .panic) := by
  constructor
  · intro mt msg o
    cases mt <;> cases msg <;>
      simp only [handle_modal_message] <;>
      (try split) <;> (try split) <;>
      intro h <;> cases h
  · intro msg o
    exact ⟨rfl, rfl⟩

/-- C5: committing a name from an AddPlaylist modal: on a name collision a
non-fatal warning is sent to the notification sink, nothing is created, and
focus ends on the Playlists pane; on success the Playlists pane is reloaded
(and focus ends on Playlists); an I/O failure during creation is propagated
as an error, with no notification. -/
theorem c5_add_playlist_commit (name : List Char) (o : Oracles) (e : Err) :
    handle_modal_message (.modal .addPlaylist) (.commit name)
        { o with create := .alreadyExists } = .ok .playlists [.notifiedErr name] ∧
    handle_modal_message (.modal .addPlaylist) (.commit name)
        { o with create := .ok, reload_dir := .ok () } =
      .ok .playlists [.createdPlaylist name, .reloadedPlaylists] ∧
    handle_modal_message (.modal .addPlaylist) (.commit name)
        { o with create := .ioErr e } = .err e := by
  exact ⟨rfl, rfl, rfl⟩

/-- C1 counterexample: the claim fails for the Play intent opened from the
Playlists pane.  `PlayFromModal` opens the Play modal regardless of the
focused pane (mod.rs lines 191-193), and cancelling the Play modal always
moves focus to Songs (lines 136-138), not back to the previously focused
Playlists pane. -/
theorem c1_counterexample :
    handle_command_focus .playlists .playFromModal none none = .modal .play ∧
    handle_modal_message (.modal .play) .quit oraclesOk = .ok .songs [] ∧
    BrowsePane.songs ≠ BrowsePane.playlists := by
  exact ⟨rfl, rfl, by decide⟩

/-- C1 (amended): when the active modal emits Cancelled, focus moves to a
fixed pane determined by the intent (Playlists for AddPlaylist, Songs for
every other intent); this is the pane that was focused when the modal was
opened for every intent except Play, which can be opened from either pane
but always returns focus to Songs. -/
theorem c1_cancel_returns (o : Oracles) :
    (∀ mt : ModalType,
        handle_modal_message (.modal mt) .quit o = .ok (cancel_return_pane mt) []) ∧
    (∀ (pane : BrowsePane) (cmd : UiCommand) (ps : Option (List Char))
        (ss : Option Nat) (mt : ModalType),
      (pane = .playlists ∨ pane = .songs) →
      handle_command_focus pane cmd ps ss = .modal mt →
      mt ≠ .play →
      cancel_return_pane mt = pane) := by
  constructor
  · intro mt
    cases mt <;> rfl
  · intro pane cmd ps ss mt hpane hopen hne
    rcases hpane with rfl | rfl <;> cases cmd <;>
      (try cases ps) <;> (try cases ss) <;>
      simp only [handle_command_focus, select_next_panel] at hopen <;>
      (try cases hopen) <;>
      first
      | rfl
      | exact absurd rfl hne

/-- Witness for the amended C1: the RenameSong modal is opened from the
Songs pane and its cancellation indeed returns focus there. -/
theorem c1_cancel_returns_witness :
    handle_modal_message (.modal (.renameSong ['R'] 3)) .quit oraclesOk =
      .ok .songs [] ∧
    cancel_return_pane (.renameSong ['R'] 3) = BrowsePane.songs := by
  constructor
  · exact (c1_cancel_returns oraclesOk).1 (.renameSong ['R'] 3)
  · exact (c1_cancel_returns oraclesOk).2 .songs .rename (some ['R']) (some 3)
      (.renameSong ['R'] 3) (Or.inr rfl) rfl (by decide)

/-- C3: the claim is right about the intended routing and the code violates
it for the arrow keys.  With a Play modal focused and the modal's cursor at
byte 2 of buffer "ab", a Left key press is intercepted by
`handle_terminal_event` before the focus check (mod.rs line 267): it calls
`select_next_panel`, a no-op under a modal, so the screen state is unchanged
and no effect reaches any pane, while the modal never receives the event;
had it been forwarded, `InputModal::handle_event` would have moved the
cursor to byte 1. -/
theorem c3_left_key_intercepted :
    (∀ (o : Oracles) (pm : ScreenMode),
        handle_terminal_key o pm ⟨.modal .play, ⟨['a', 'b'], 2, 0⟩⟩ .left =
          (.ok (.modal .play) [], ⟨['a', 'b'], 2, 0⟩)) ∧
    modal_handle_event ⟨['a', 'b'], 2, 0⟩ .left =
      some (⟨['a', 'b'], 1, 0⟩, ModalMessage.nothing) := by
  exact ⟨fun o pm => rfl, by decide⟩

/-- Membership is preserved by sorted insertion. -/
theorem mem_ordered_insert (le : Nat → Nat → Bool) (a x : Nat) :
    ∀ l : List Nat, (x ∈ ordered_insert le a l ↔ x ∈ a :: l) := by
  intro l
  induction l with
  | nil => simp [ordered_insert]
  | cons b t ih =>
    simp only [ordered_insert]
    split
    · exact Iff.rfl
    · simp only [List.mem_cons] at ih ⊢
      tauto

/-- Membership is preserved by the stable insertion sort. -/
theorem mem_insertion_sort (le : Nat → Nat → Bool) (x : Nat) :
    ∀ l : List Nat, (x ∈ insertion_sort le l ↔ x ∈ l) := by
  intro l
  induction l with
  | nil => exact Iff.rfl
  | cons a t ih =>
    simp only [insertion_sort]
    rw [mem_ordered_insert]
    simp only [List.mem_cons]
    tauto

/-- C4: after a refresh, the visible sequence contains exactly the indices
of the songs matched by the filter predicate: the filter is empty, or the
filter text with the leading sentinel byte and all trailing line breaks
stripped is a case-insensitive substring of the song's title or path (an
empty filter matches every song, including through the sorted refreshes). -/
theorem c4_refresh_shown_membership (songs : List Song) (filter : List Char)
    (m : SortingMethod) (i : Nat) :
    i ∈ refresh_shown songs filter m ↔
      (i < songs.length ∧ song_filter_pred filter (songs.getD i default) = true) := by
  unfold refresh_shown filtered_list_filter
  cases m <;>
    simp [mem_insertion_sort, List.mem_filter, List.mem_range]

/-- C9: the songs-pane reload re-derives the backing list from the parsed
playlist, resets the filter, recomputes the visible sequence, and then
preserves the previous cursor when it is still in range of the new list,
else selects the first element when the visible sequence is non-empty, else
clears the selection. -/
theorem c9_update_from_playlist (t : List Char) (parsed : List Song)
    (p : SongsPaneState) :
    (update_from_playlist t parsed p).songs = parsed ∧
    (update_from_playlist t parsed p).filter = [] ∧
    (update_from_playlist t parsed p).items = refresh_shown parsed [] p.method ∧
    (∀ i, p.cursor = some i → i < parsed.length →
      (update_from_playlist t parsed p).cursor = some i) ∧
    ((∀ i, p.cursor = some i → ¬ i < parsed.length) →
      (update_from_playlist t parsed p).cursor =
        (if (update_from_playlist t parsed p).items.isEmpty then none else some 0)) := by
  refine ⟨rfl, rfl, rfl, ?_, ?_⟩
  · intro i hi hlt
    simp [update_from_playlist, hi, hlt]
  · intro h
    cases hc : p.cursor with
    | none => simp [update_from_playlist, hc]
    | some i =>
      have hni := h i hc
      simp [update_from_playlist, hc, hni]

/-- Witness for C9: an in-range cursor is preserved, and reloading an empty
playlist clears the selection. -/
theorem c9_update_from_playlist_witness :
    (update_from_playlist [] [songA] ⟨[], [songC], [0], some 0, [], .index⟩).cursor =
      some 0 ∧
    (update_from_playlist [] [] ⟨[], [songC], [0], some 5, [], .index⟩).cursor =
      none := by
  constructor
  · exact (c9_update_from_playlist [] [songA] ⟨[], [songC], [0], some 0, [], .index⟩).2.2.2.1
      0 rfl (by decide)
  · have h := (c9_update_from_playlist [] [] ⟨[], [songC], [0], some 5, [], .index⟩).2.2.2.2
      (by intro i hi; cases hi; decide)
    rw [h]
    rfl

/-- Rust `Vec::swap` at two in-range indices succeeds and exchanges exactly
the two entries. -/
theorem list_swap_spec (l : List Song) (i j : Nat)
    (hi : i < l.length) (hj : j < l.length) :
    ∃ l', list_swap l i j = some l' ∧ l'.length = l.length ∧
      l'[i]? = l[j]? ∧ l'[j]? = l[i]? ∧
      (∀ k, k ≠ i → k ≠ j → l'[k]? = l[k]?) := by
  obtain ⟨a, ha⟩ : ∃ a, l[i]? = some a := ⟨l[i], List.getElem?_eq_getElem hi⟩
  obtain ⟨b, hb⟩ : ∃ b, l[j]? = some b := ⟨l[j], List.getElem?_eq_getElem hj⟩
  refine ⟨(l.set i b).set j a, ?_, ?_, ?_, ?_, ?_⟩
  · simp only [list_swap, List.get?_eq_getElem?]
    rw [ha, hb]
  · simp [List.length_set]
  · by_cases hij : i = j
    · subst hij
      rw [ha] at hb
      injection hb with hab
      subst hab
      rw [List.getElem?_set_eq_of_lt a (by rw [List.length_set]; exact hi), ha]
    · rw [List.getElem?_set_ne (fun he => hij he.symm),
        List.getElem?_set_eq_of_lt b hi, hb]
  · rw [List.getElem?_set_eq_of_lt a (by rw [List.length_set]; exact hj), ha]
  · intro k hki hkj
    rw [List.getElem?_set_ne (fun he => hkj he.symm),
      List.getElem?_set_ne (fun he => hki he.symm)]

/-- On an unfiltered Index-sorted pane the selected backing index is the
cursor position itself. -/
theorem selected_index_index_pane (t : List Char) (songs : List Song) (c : Nat)
    (f : List Char) (h : c < songs.length) :
    selected_index (index_pane t songs c f) = some c := by
  simp only [selected_index, index_pane, Option.some_bind, List.get?_eq_getElem?]
  exact List.getElem?_range h

/-- Computation of the swap-with-previous command on an unfiltered
Index-sorted pane when the persisted swap succeeds. -/
theorem handle_swap_up_eq (t : List Char) (songs : List Song) (c : Nat)
    (hc : c < songs.length) (hc1 : 1 ≤ c) (l' : List Song)
    (hswap : list_swap songs (c - 1) c = some l') :
    handle_swap_command (.ok ()) .up (index_pane t songs c []) =
      .ok ⟨t, l', List.range songs.length, some (c - 1), [], .index⟩
        [.swappedInSource (c - 1)] := by
  have hsel := selected_index_index_pane t songs c [] hc
  have hn : ¬ (songs.length = 0) := by omega
  simp only [index_pane] at hsel
  simp only [handle_swap_command, hsel, hswap, index_pane, List.isEmpty_nil, if_true,
    if_pos hc1, select_prev_cursor, List.length_range, hn, if_false]

/-- Computation of the swap-with-next command on an unfiltered Index-sorted
pane at a non-final position when the persisted swap succeeds. -/
theorem handle_swap_down_eq (t : List Char) (songs : List Song) (c : Nat)
    (hc1 : c + 1 < songs.length) (l' : List Song)
    (hswap : list_swap songs c (c + 1) = some l') :
    handle_swap_command (.ok ()) .down (index_pane t songs c []) =
      .ok ⟨t, l', List.range songs.length, some (c + 1), [], .index⟩
        [.swappedInSource c] := by
  have hsel := selected_index_index_pane t songs c [] (by omega)
  have hn : ¬ (songs.length = 0) := by omega
  simp only [index_pane] at hsel
  have hmin : min (c + 1) (songs.length - 1) = c + 1 := by omega
  simp only [handle_swap_command, hsel, hswap, index_pane, List.isEmpty_nil, if_true,
    select_next_cursor, List.length_range, hn, if_false, hmin]

/-- The swap-with-next command panics at the last position: the in-memory
`Vec::swap` is called with an out-of-bounds second index. -/
theorem handle_swap_down_last_panic (t : List Char) (songs : List Song) (c : Nat)
    (hc : c + 1 = songs.length) :
    handle_swap_command (.ok ()) .down (index_pane t songs c []) = .panic := by
  have hsel := selected_index_index_pane t songs c [] (by omega)
  simp only [index_pane] at hsel
  have hnone : songs[c + 1]? = none := List.getElem?_eq_none (by omega)
  have hswap : list_swap songs c (c + 1) = none := by
    simp only [list_swap, List.get?_eq_getElem?, hnone]
    rcases h2 : songs[c]? with _ | a <;> rfl
  simp only [handle_swap_command, hsel, hswap, index_pane, List.isEmpty_nil, if_true]

/-- With an active filter both swap commands fall through to the no-op arm. -/
theorem handle_swap_filtered_noop (t : List Char) (songs : List Song) (c : Nat)
    (f : List Char) (d : SwapDir) (o : Except Err Unit) (hf : f ≠ []) :
    handle_swap_command o d (index_pane t songs c f) =
      .ok (index_pane t songs c f) [] := by
  have hne : f.isEmpty = false := by
    cases f with
    | nil => exact absurd rfl hf
    | cons a l => rfl
  cases d <;>
    simp only [handle_swap_command, index_pane, hne, Bool.false_eq_true, if_false]

/-- C8 counterexample: two parts of the claim fail.  (1) On a one-song
unfiltered pane the swap-with-next command acts on the selected position 0
(it even performs the persisted swap first) but then panics in `Vec::swap`
instead of swapping.  (2) Under Title sorting (visible sequence [1, 0] for
backing titles "b", "a"), swap-with-previous on visible position 0 swaps the
backing entries but never refreshes the visible sequence, so the cursor ends
on song "b" instead of following the moved song "a". -/
theorem c8_counterexample :
    handle_swap_command (.ok ()) .down (index_pane [] [songA] 0 []) = .panic ∧
    refresh_shown [songB, songA] [] .title = [1, 0] ∧
    handle_swap_command (.ok ()) .up ⟨[], [songB, songA], [1, 0], some 0, [], .title⟩ =
      .ok ⟨[], [songA, songB], [1, 0], some 0, [], .title⟩ [.swappedInSource 0] ∧
    selected_song ⟨[], [songB, songA], [1, 0], some 0, [], .title⟩ = some songA ∧
    selected_song ⟨[], [songA, songB], [1, 0], some 0, [], .title⟩ = some songB ∧
    songB ≠ songA := by
  decide

/-- C8 (amended): on an unfiltered Index-sorted songs pane, swap-with-previous
(for a selected position at least 1) and swap-with-next (for a selected
position with a successor) swap the selected song with its adjacent
neighbour in the backing collection and persist the same swap to the
playlist source, and the cursor then follows the moved song; swap-with-next
at the last position panics instead, and with an active filter both commands
are disabled (no-ops). -/
theorem c8_swap_commands (t : List Char) (songs : List Song) (c : Nat)
    (hc : c < songs.length) :
    (1 ≤ c → ∃ p', handle_swap_command (.ok ()) .up (index_pane t songs c []) =
        .ok p' [.swappedInSource (c - 1)] ∧
      p'.songs.length = songs.length ∧
      p'.songs[c - 1]? = songs[c]? ∧
      p'.songs[c]? = songs[c - 1]? ∧
      (∀ k, k ≠ c - 1 → k ≠ c → p'.songs[k]? = songs[k]?) ∧
      p'.cursor = some (c - 1) ∧
      selected_song p' = songs[c]?) ∧
    (c + 1 < songs.length →
      ∃ p', handle_swap_command (.ok ()) .down (index_pane t songs c []) =
        .ok p' [.swappedInSource c] ∧
      p'.songs.length = songs.length ∧
      p'.songs[c + 1]? = songs[c]? ∧
      p'.songs[c]? = songs[c + 1]? ∧
      (∀ k, k ≠ c → k ≠ c + 1 → p'.songs[k]? = songs[k]?) ∧
      p'.cursor = some (c + 1) ∧
      selected_song p' = songs[c]?) ∧
    (c + 1 = songs.length →
      handle_swap_command (.ok ()) .down (index_pane t songs c []) = .panic) ∧
    (∀ (f : List Char) (d : SwapDir) (o : Except Err Unit), f ≠ [] →
      handle_swap_command o d (index_pane t songs c f) =
        .ok (index_pane t songs c f) []) := by
  refine ⟨?_, ?_, handle_swap_down_last_panic t songs c,
    fun f d o hf => handle_swap_filtered_noop t songs c f d o hf⟩
  · intro hc1
    obtain ⟨l', hswap, hlen, hgi, hgj, hother⟩ :=
      list_swap_spec songs (c - 1) c (by omega) hc
    refine ⟨⟨t, l', List.range songs.length, some (c - 1), [], .index⟩,
      handle_swap_up_eq t songs c hc hc1 l' hswap, hlen, hgi, hgj, hother, rfl, ?_⟩
    have hsel' : selected_index
        ⟨t, l', List.range songs.length, some (c - 1), [], .index⟩ = some (c - 1) := by
      simp only [selected_index, Option.some_bind, List.get?_eq_getElem?]
      exact List.getElem?_range (by omega)
    simp only [selected_song, hsel', Option.some_bind, List.get?_eq_getElem?]
    exact hgi
  · intro hc1
    obtain ⟨l', hswap, hlen, hgi, hgj, hother⟩ :=
      list_swap_spec songs c (c + 1) hc (by omega)
    refine ⟨⟨t, l', List.range songs.length, some (c + 1), [], .index⟩,
      handle_swap_down_eq t songs c hc1 l' hswap, hlen, hgj, hgi, hother, rfl, ?_⟩
    have hsel' : selected_index
        ⟨t, l', List.range songs.length, some (c + 1), [], .index⟩ = some (c + 1) := by
      simp only [selected_index, Option.some_bind, List.get?_eq_getElem?]
      exact List.getElem?_range (by omega)
    simp only [selected_song, hsel', Option.some_bind, List.get?_eq_getElem?]
    exact hgj

/-- Witness for the amended C8 on a concrete three-song pane. -/
theorem c8_swap_commands_witness :
    ∃ p', handle_swap_command (.ok ()) .up (index_pane [] [songA, songB, songC] 1 []) =
        .ok p' [.swappedInSource 0] ∧
      p'.cursor = some 0 ∧ selected_song p' = some songB := by
  obtain ⟨p', h1, _, _, _, _, h6, h7⟩ :=
    (c8_swap_commands [] [songA, songB, songC] 1 (by decide)).1 (by decide)
  exact ⟨p', h1, h6, h7⟩
